import Mathlib

/-!
# notable: process start-up, singleton guard and restart protocol

A shallow embedding of `main.go`.  Every function of the source that touches the
outside world is rendered as a pure function from the flag values and the
results of the calls it cannot see into (`running`, `NewBoltDB`, `NewSqlite3`,
`daemonize`, `net.Listen`, `exec.Cmd.Run`, `exec.Cmd.Start`, `homedir.Expand`)
to the list of actions it performs, in program order, together with the way it
ends.  The restart channel is a bounded queue, and `filepath.Join` is either a
parameter or the function of the standard library for the separator `/`.
-/

namespace Notable

/-! ## Data model -/

/-- A Go `error` value: `none` is `nil`, `some msg` is a non-nil error. -/
abbrev GoError := Option String

/-- The command line flags declared in the `var ( ... )` block of `main.go`. -/
structure Flags where
  /-- The flag `-bind`: the interface to listen on. -/
  bind : String
  /-- The flag `-db`: the path of the storage file. -/
  dbPath : String
  /-- The flag `-port`, declared with `flag.Int`: a number only, although its usage text
  speaks of an interface as well. -/
  port : Int
  /-- The flag `-browser`. -/
  browser : Bool
  /-- The flag `-daemon`. -/
  daemon : Bool
  /-- The flag `-restart`. -/
  restart : Bool
  /-- The flag `-use.bolt`. -/
  useBolt : Bool
  /-- The flag `-version`. -/
  version : Bool
deriving DecidableEq, Repr

/-- The defaults given in the `flag.String` / `flag.Int` / `flag.Bool` declarations. -/
def defaultFlags : Flags :=
  { bind := "localhost", dbPath := "", port := 8080, browser := true, daemon := true,
    restart := false, useBolt := true, version := false }

/-- An `exec.Cmd` as built by `exec.Command(name, arg...)`: the program name and the
arguments that follow it. -/
structure Cmd where
  name : String
  arg : List String
deriving DecidableEq, Repr

/-- The `Args` field of an `exec.Cmd`: the name followed by the arguments. -/
def Cmd.argv (c : Cmd) : List String := c.name :: c.arg

/-- The library constructor `exec.Command(name, arg...)`. -/
def execCommand (name : String) (arg : List String) : Cmd := { name := name, arg := arg }

/-- What the calls that leave `main.go` answer in one run of the process. -/
structure World where
  /-- The value of `runtime.GOOS`. -/
  goos : String
  /-- The value of `os.Args`. -/
  osArgs : List String
  /-- The result of `exec.Command(...).Run()` inside `openBrowser`. -/
  browserRun : GoError
  /-- Whether an instance is already running: what `running()` answers when called. -/
  running : Bool
  /-- The error returned by `NewBoltDB`. -/
  newBoltDB : GoError
  /-- The error returned by `NewSqlite3`. -/
  newSqlite3 : GoError
  /-- The error returned by `net.Listen`. -/
  listen : GoError
  /-- The result of `cmd.Start()`: the pid of the new process, or `none` when the start
  failed, in which case `cmd.Process` stays `nil`. -/
  cmdStart : Option Nat
  /-- The restart request sent to `restartChan` while the process serves, if one is. -/
  request : Option String
deriving DecidableEq, Repr

/-- The observable actions of the process, one per statement with an effect. -/
inductive Action where
  /-- The five `fmt.Printf` lines of the version banner. -/
  | printVersion
  /-- Running a command to completion: `exec.Command(...).Run()`. -/
  | run (cmd : Cmd) (err : GoError)
  /-- The call `running()` and its answer. -/
  | running (answer : Bool)
  /-- The call `NewBoltDB(path)` and the error it returned. -/
  | newBoltDB (path : String) (err : GoError)
  /-- The call `NewSqlite3(path)` and the error it returned. -/
  | newSqlite3 (path : String) (err : GoError)
  /-- The line `log.Infof("Using backend %s", db)`. -/
  | logBackend
  /-- The call `daemonize()`. -/
  | daemonize
  /-- The call `net.Listen("tcp", addr)` and the error it returned. -/
  | listen (addr : String) (err : GoError)
  /-- The line `log.Infof("Listening on ...")`. -/
  | logListening (addr : String)
  /-- The `go func(listener) ...` statement that launches the restart routine. -/
  | goRestart
  /-- The call `http.Serve(listener, router)`. -/
  | serve
  /-- The call `time.Sleep` with its number of seconds. -/
  | sleep (seconds : Nat)
  /-- The deferred `db.close()`. -/
  | dbClose
  /-- The message written by `log.Fatal` / `log.Fatalf` before it exits. -/
  | logFatal
  /-- The receive `<-restartChan` and the message received. -/
  | recv (msg : String)
  /-- The line `log.Warnf("Restart requested msg=%s", ...)`. -/
  | logRestart (msg : String)
  /-- The call `listener.Close()`. -/
  | closeListener
  /-- The call `cmd.Start()` and its result. -/
  | cmdStart (cmd : Cmd) (pid : Option Nat)
  /-- The line `log.Infof("Replacement started pid=%v", cmd.Process.Pid)`. -/
  | logReplacement (pid : Nat)
  /-- The call `os.Exit(code)`, also the one made by `log.Fatal`. -/
  | exit (code : Nat)
  /-- A run-time panic (nil dereference, index out of range, `log.Panic`). -/
  | panic
deriving DecidableEq, Repr

/-- How a piece of code ends. -/
inductive Outcome where
  /-- The function returned to its caller. -/
  | returned
  /-- The process was ended by `os.Exit(code)`. -/
  | exited (code : Nat)
  /-- The process was ended by a run-time panic. -/
  | panicked
  /-- The code waits for an event that has not happened. -/
  | blocked
deriving DecidableEq, Repr

/-- A run: the actions performed in program order and the way the code ended. -/
structure Run where
  trace : List Action
  outcome : Outcome
deriving DecidableEq, Repr

/-- The exit status of the process when `main` ends with the given outcome: `0` when
`main` returns, the argument of `os.Exit`, `2` for an unrecovered panic, and none while
the process is still waiting. -/
def exitStatus : Outcome → Option Nat
  | .returned => some 0
  | .exited code => some code
  | .panicked => some 2
  | .blocked => none

/-! ## The restart channel -/

/-- A Go buffered channel of strings: its capacity and the messages waiting in it, the
oldest first. -/
structure Chan where
  cap : Nat
  buf : List String
deriving DecidableEq, Repr

/-- The builtin `make(chan string, n)`. -/
def Chan.make (n : Nat) : Chan := { cap := n, buf := [] }

/-- The declaration `var restartChan = make(chan string, 1)`. -/
def restartChan : Chan := Chan.make 1

/-- A send `c <- m` with no receiver waiting: it completes when the buffer has room and
otherwise does not complete (`none`: the sender stays blocked). -/
def Chan.send (c : Chan) (m : String) : Option Chan :=
  if c.buf.length < c.cap then some { c with buf := c.buf ++ [m] } else none

/-- A receive `<-c`: it takes the oldest waiting message, and does not complete
(`none`: the receiver stays blocked) when nothing waits. -/
def Chan.recv (c : Chan) : Option (String × Chan) :=
  match c.buf with
  | [] => none
  | m :: rest => some (m, { c with buf := rest })

/-- The states of the restart channel that sends and receives can produce, starting
from its declaration. -/
inductive Reachable : Chan → Prop where
  | start : Reachable restartChan
  | send {c c' : Chan} {m : String} : Reachable c → c.send m = some c' → Reachable c'
  | recv {c c' : Chan} {m : String} : Reachable c → c.recv = some (m, c') → Reachable c'

/-! ## The functions of `main.go` -/

/-- The command `openBrowser` builds: the launcher of the platform followed by the URL
of the service. -/
def openBrowserCmd (goos : String) (f : Flags) : Cmd :=
  let args : List String :=
    if goos = "darwin" then ["open"]
    else if goos = "windows" then ["cmd", "/c", "start"]
    else ["xdg-open"]
  let url := "http://" ++ f.bind ++ ":" ++ toString f.port
  execCommand (args.headD "") (args.tail ++ [url])

/-- The function `openBrowser`: runs the launcher and returns its error. -/
def openBrowser (f : Flags) (w : World) : List Action × GoError :=
  ([.run (openBrowserCmd w.goos f) w.browserRun], w.browserRun)

/-- The command built in the restart routine, `exec.Command(os.Args[0], os.Args[1:]...)`;
`none` when `os.Args[0]` is out of range. -/
def restartCommand (osArgs : List String) : Option Cmd :=
  match osArgs with
  | [] => none
  | a :: rest => some (execCommand a rest)

/-- The body of the `go func(listener net.Listener)` statement of `start`, run on the
restart channel in state `ch`.  It returns the run and the channel left behind. -/
def restartRoutine (ch : Chan) (w : World) : Run × Chan :=
  match ch.recv with
  | none => ({ trace := [], outcome := .blocked }, ch)
  | some (msg, ch') =>
    let t := [Action.recv msg, .logRestart msg, .closeListener]
    match restartCommand w.osArgs with
    | none => ({ trace := t ++ [.panic], outcome := .panicked }, ch')
    | some cmd =>
      let t := t ++ [.cmdStart cmd w.cmdStart]
      -- `cmd.Process.Pid`: `cmd.Process` is nil when the start failed
      match w.cmdStart with
      | none => ({ trace := t ++ [.panic], outcome := .panicked }, ch')
      | some pid =>
        ({ trace := t ++ [.logReplacement pid, .exit 0], outcome := .exited 0 }, ch')

/-- The function `start`.  When the listener is acquired the calling goroutine stays in
`http.Serve`, which returns only once the listener is closed, and only the restart
routine closes it: with no restart request the process serves on (`blocked`); with one,
the routine runs as `restartRoutine` on the channel holding the request, `http.Serve`
returns at its `listener.Close()`, and the routine ends the process while the caller is
in `time.Sleep`, which is shown at the earliest point it can begin.  The caller never
returns from `start` on this path. -/
def start (f : Flags) (w : World) : Run :=
  let addr := f.bind ++ ":" ++ toString f.port
  let t := [Action.listen addr w.listen, .logListening addr]
  match w.listen with
  | some _ => { trace := t ++ [.logFatal, .exit 1], outcome := .exited 1 }
  | none =>
    let t := t ++ [.goRestart, .serve]
    match w.request with
    | none => { trace := t, outcome := .blocked }
    | some msg =>
      let r := (restartRoutine { restartChan with buf := [msg] } w).1
      { trace := t ++ r.trace.take 3 ++ [.sleep 5] ++ r.trace.drop 3, outcome := r.outcome }

/-- The engine choice of `main` (the `if *useBolt || runtime.GOOS == "darwin"` statement):
the constructor call made and the error it returned. -/
def openBackend (f : Flags) (w : World) : Action × GoError :=
  if f.useBolt || w.goos = "darwin" then (.newBoltDB f.dbPath w.newBoltDB, w.newBoltDB)
  else (.newSqlite3 f.dbPath w.newSqlite3, w.newSqlite3)

/-- The last statement of `main`: `daemonize()` when the daemon flag is set, `start(router)`
otherwise. -/
def serveOrDaemonize (f : Flags) (w : World) : Run :=
  if f.daemon then { trace := [.daemonize], outcome := .returned } else start f w

/-- The function `main`. -/
def main (f : Flags) (w : World) : Run :=
  if f.version then { trace := [.printVersion], outcome := .returned }
  else
    let b : List Action × GoError := if f.browser then openBrowser f w else ([], none)
    match b.2 with
    | some _ => { trace := b.1 ++ [.logFatal, .exit 1], outcome := .exited 1 }
    | none =>
      let t := b.1 ++ [.running w.running]
      if w.running then { trace := t, outcome := .returned }
      else
        let o := openBackend f w
        let t := t ++ [o.1]
        match o.2 with
        | some _ => { trace := t ++ [.logFatal, .exit 1], outcome := .exited 1 }
        | none =>
          let t := t ++ [.logBackend]
          let r := serveOrDaemonize f w
          -- `defer db.close()` runs when `main` returns, not when the process exits
          match r.outcome with
          | .returned => { trace := t ++ r.trace ++ [.dbClose], outcome := .returned }
          | other => { trace := t ++ r.trace, outcome := other }

/-- The function `homeDirPath`, given the result of `homedir.Expand("~/")`: the home
directory, or `none` when `log.Panic` is reached. -/
def homeDirPath (expand : Except String String) : Option String :=
  match expand with
  | .error _ => none
  | .ok h => some h

/-- The function `init`, after `flag.Parse()` has filled in `f`: the flags `main` sees,
or `none` when `homeDirPath` panics.  `join` is `filepath.Join` of the platform. -/
def init (join : List String → String) (expand : Except String String) (f : Flags) :
    Option Flags :=
  if f.dbPath = "" then
    match homeDirPath expand with
    | none => none
    | some h => some { f with dbPath := join [h, ".notable/notes.db"] }
  else some f

/-! ## The library function `filepath.Join`

`path/filepath` of the Go standard library on a platform whose separator is `/`
(linux, darwin).  Paths are read as lists of characters; `Clean` is the loop of the
library with the read index `r` replaced by the unread part of the path and the
write buffer `out` by the list written so far. -/

/-- The inner loop of the `..` case of `Clean`: from write index `w`, step back while
`w > dotdot` and the character at `w` is not a separator. -/
def backtrackTo (out : List Char) (dotdot : Nat) : Nat → Nat
  | 0 => 0
  | w + 1 =>
    if dotdot < w + 1 ∧ out[w + 1]? ≠ some '/' then backtrackTo out dotdot w else w + 1

/-- The `..` case of `Clean`: drop the last element when the buffer holds one past
`dotdot`; otherwise, when the path is not rooted, append `..` and move `dotdot` there.
The result is the buffer and the new `dotdot`. -/
def dotdotStep (rooted : Bool) (out : List Char) (dotdot : Nat) : List Char × Nat :=
  if dotdot < out.length then
    (out.take (backtrackTo out dotdot (out.length - 1)), dotdot)
  else if rooted then (out, dotdot)
  else
    let out1 := if 0 < out.length then out ++ ['/'] else out
    (out1 ++ ['.', '.'], (out1 ++ ['.', '.']).length)

/-- The start of the default case of `Clean`: "add slash if needed". -/
def addSeparator (rooted : Bool) (out : List Char) : List Char :=
  if (rooted && out.length != 1) || (!rooted && out.length != 0) then out ++ ['/'] else out

/-- The test `r == n || os.IsPathSeparator(path[r])` on the unread part of the path. -/
def atElementEnd (unread : List Char) : Bool :=
  match unread with
  | [] => true
  | c :: _ => c = '/'

/-- The main loop of `Clean`.  The first flag is `rooted`; the second tells whether the
loop is inside the copy of a real path element; then come the unread part of the path,
the buffer and `dotdot`.  The result is the final buffer and `dotdot`. -/
def cleanLoop (rooted : Bool) : Bool → List Char → List Char → Nat → List Char × Nat
  | _, [], out, dotdot => (out, dotdot)
  | true, c :: rest, out, dotdot =>
    if c = '/' then cleanLoop rooted false rest out dotdot
    else cleanLoop rooted true rest (out ++ [c]) dotdot
  | false, [c], out, dotdot =>
    if c = '/' then (out, dotdot)
    else if c = '.' then (out, dotdot)
    else (addSeparator rooted out ++ [c], dotdot)
  | false, c :: d :: rest, out, dotdot =>
    if c = '/' then cleanLoop rooted false (d :: rest) out dotdot
    else if c = '.' ∧ d = '/' then cleanLoop rooted false (d :: rest) out dotdot
    else if c = '.' ∧ d = '.' ∧ atElementEnd rest = true then
      cleanLoop rooted false rest (dotdotStep rooted out dotdot).1
        (dotdotStep rooted out dotdot).2
    else cleanLoop rooted true (d :: rest) (addSeparator rooted out ++ [c]) dotdot

/-- The buffer of `Clean` when its loop ends: a rooted path starts with the separator
written and `dotdot = 1`, any other with the empty buffer and `dotdot = 0`. -/
def cleanBuf (path : List Char) : List Char :=
  if path.head? = some '/' then (cleanLoop true false path.tail ['/'] 1).1
  else (cleanLoop false false path [] 0).1

/-- The function `filepath.Clean`: an empty buffer is turned into `.`. -/
def filepathClean (path : String) : String :=
  if cleanBuf path.data = [] then "." else String.mk (cleanBuf path.data)

/-- The function `filepath.Join`: leading empty elements are dropped, the rest is joined
with the separator and cleaned; with no non-empty element the result is empty. -/
def filepathJoin (elem : List String) : String :=
  match elem.dropWhile (fun e => e = "") with
  | [] => ""
  | es => filepathClean (String.intercalate "/" es)

/-- The characters of `.notable/notes.db`, the path `init` joins to the home
directory. -/
def notesRel : List Char :=
  ['.', 'n', 'o', 't', 'a', 'b', 'l', 'e', '/', 'n', 'o', 't', 'e', 's', '.', 'd', 'b']

/-! ## Predicates on actions and traces -/

/-- The action opens a storage backend (either engine). -/
def Action.isBackendOpen : Action → Bool
  | .newBoltDB _ _ => true
  | .newSqlite3 _ _ => true
  | _ => false

/-- The action is one that only `start` performs: acquiring the listener and what
follows it. -/
def Action.inStart : Action → Bool
  | .listen _ _ => true
  | .logListening _ => true
  | .goRestart => true
  | .serve => true
  | .sleep _ => true
  | _ => false

/-- The action is one the singleton guard protects: a backend open, the call
`daemonize()`, or anything `start` does. -/
def Action.guarded : Action → Bool
  | .daemonize => true
  | a => a.isBackendOpen || a.inStart

/-- The action is a call of `running()` that answered false. -/
def Action.isNotRunning : Action → Bool
  | .running false => true
  | _ => false

/-- The two storage engines. -/
inductive Engine where
  /-- The embedded key-value engine behind `NewBoltDB`. -/
  | bolt
  /-- The relational engine behind `NewSqlite3`. -/
  | sqlite3
deriving DecidableEq, Repr

/-- The engine a constructor call opens, for the actions that are constructor calls. -/
def Action.engine : Action → Option Engine
  | .newBoltDB _ _ => some .bolt
  | .newSqlite3 _ _ => some .sqlite3
  | _ => none

/-- The engines opened in a trace, in order. -/
def openedEngines (t : List Action) : List Engine := t.filterMap Action.engine

/-- The engine the condition `*useBolt || runtime.GOOS == "darwin"` stands for. -/
def selectedEngine (f : Flags) (w : World) : Engine :=
  if f.useBolt = true ∨ w.goos = "darwin" then .bolt else .sqlite3

/-- The action is a backend constructor call that returned no error. -/
def Action.isOpenOk : Action → Bool
  | .newBoltDB _ none => true
  | .newSqlite3 _ none => true
  | _ => false

/-- The actions of the `if *browser` statement of `main` when the launcher succeeds or
is not asked for. -/
def openBrowserTrace (f : Flags) (w : World) : List Action :=
  if f.browser then [.run (openBrowserCmd w.goos f) w.browserRun] else []

/-- The action is a backend constructor call that returned an error. -/
def Action.isOpenFailed : Action → Bool
  | .newBoltDB _ (some _) => true
  | .newSqlite3 _ (some _) => true
  | _ => false

/-- The action is a call of `net.Listen`. -/
def Action.isListen : Action → Bool
  | .listen _ _ => true
  | _ => false

/-- The action is the call `daemonize()`. -/
def Action.isDaemonize : Action → Bool
  | .daemonize => true
  | _ => false

/-- The action is a receive from the restart channel. -/
def Action.isRecv : Action → Bool
  | .recv _ => true
  | _ => false

/-- The action is the call `listener.Close()`. -/
def Action.isClose : Action → Bool
  | .closeListener => true
  | _ => false

/-- The action is the spawn of the replacement process, `cmd.Start()`. -/
def Action.isSpawn : Action → Bool
  | .cmdStart _ _ => true
  | _ => false

/-- The action is a `cmd.Start()` that gave a process: the replacement exists. -/
def Action.isSpawned : Action → Bool
  | .cmdStart _ (some _) => true
  | _ => false

/-- The action is a call of `os.Exit`. -/
def Action.isExit : Action → Bool
  | .exit _ => true
  | _ => false

/-- The action is the spawn of the replacement process or a call of `os.Exit`. -/
def Action.isSpawnOrExit (a : Action) : Bool := a.isSpawn || a.isExit

/-- The command a `cmd.Start()` action starts. -/
def Action.command : Action → Option Cmd
  | .cmdStart c _ => some c
  | _ => none

/-- The commands started in a trace, in order. -/
def startedCommands (t : List Action) : List Cmd := t.filterMap Action.command

/-- No element that satisfies `q` comes after an element that satisfies `p`. -/
def noneAfter (p q : Action → Bool) : List Action → Bool
  | [] => true
  | a :: t => (!p a || t.all (fun b => !q b)) && noneAfter p q t

/-- Every element of the list that satisfies `p` comes after an element that
satisfies `q`. -/
def precededBy (q p : Action → Bool) : List Action → Bool
  | [] => true
  | a :: t => !p a && (q a || precededBy q p t)

/-- The run gets past the singleton guard: no version banner, no failed browser launch,
no instance already running. -/
def pastGuard (f : Flags) (w : World) : Prop :=
  f.version = false ∧ ¬(f.browser = true ∧ w.browserRun ≠ none) ∧ w.running = false

instance (f : Flags) (w : World) : Decidable (pastGuard f w) := by
  unfold pastGuard
  infer_instance

/-! ## Concrete runs -/

/-- A first instance started on Linux: nothing is running yet and every call succeeds. -/
def linuxWorld : World :=
  { goos := "linux", osArgs := ["notable", "-use.bolt=false"], browserRun := none,
    running := false, newBoltDB := none, newSqlite3 := none, listen := none,
    cmdStart := some 4242, request := none }

/-- The same run on macOS. -/
def darwinWorld : World := { linuxWorld with goos := "darwin" }

/-- A second instance, started while one is already running. -/
def secondInstanceWorld : World := { linuxWorld with running := true }

/-- A second instance started on a machine where the browser launcher cannot be run. -/
def browserFailsWorld : World :=
  { secondInstanceWorld with browserRun := some "exec: xdg-open: executable file not found" }

/-- A process whose executable can no longer be started (for instance, it was removed
after the process began). -/
def startFailsWorld : World :=
  { linuxWorld with osArgs := ["./notable", "-daemon=false"], cmdStart := none }

/-- A process started with an empty argument vector. -/
def noArgsWorld : World := { linuxWorld with osArgs := [] }

/-- The version banner asked for on a machine where the backend cannot be opened. -/
def versionFlags : Flags := { defaultFlags with version := true }

/-- A first instance whose embedded store cannot be opened. -/
def backendFailsWorld : World := { linuxWorld with newBoltDB := some "timeout" }

/-- The restart channel with the request `upgrade` pending. -/
def pendingChan : Chan := { restartChan with buf := ["upgrade"] }

/-! ## Theorems -/

theorem precededBy_sound (q p : Action → Bool) (l : List Action)
    (h : precededBy q p l = true) (pre : List Action) (a : Action) (post : List Action)
    (hl : l = pre ++ a :: post) (hp : p a = true) : ∃ b ∈ pre, q b = true := by
  induction l generalizing pre with
  | nil => simp at hl
  | cons x t ih =>
    simp only [precededBy, Bool.and_eq_true, Bool.or_eq_true, Bool.not_eq_true'] at h
    cases pre with
    | nil =>
      simp only [List.nil_append, List.cons.injEq] at hl
      rw [← hl.1, h.1] at hp
      exact absurd hp (by simp)
    | cons y pre' =>
      simp only [List.cons_append, List.cons.injEq] at hl
      rcases h.2 with hq | hrec
      · exact ⟨y, by simp, by rw [← hl.1]; exact hq⟩
      · obtain ⟨b, hb, hqb⟩ := ih hrec pre' hl.2
        exact ⟨b, by simp [hb], hqb⟩


theorem noneAfter_sound (p q : Action → Bool) (l : List Action)
    (h : noneAfter p q l = true) (pre : List Action) (a : Action) (post : List Action)
    (hl : l = pre ++ a :: post) (hp : p a = true) : ∀ b ∈ post, q b = false := by
  induction l generalizing pre with
  | nil => simp at hl
  | cons x t ih =>
    simp only [noneAfter, Bool.and_eq_true, Bool.or_eq_true, Bool.not_eq_true',
      List.all_eq_true] at h
    cases pre with
    | nil =>
      simp only [List.nil_append, List.cons.injEq] at hl
      rcases h.1 with hx | hall
      · rw [hl.1, hp] at hx
        exact absurd hx (by simp)
      · intro b hb
        exact hall b (hl.2 ▸ hb)
    | cons y pre' =>
      simp only [List.cons_append, List.cons.injEq] at hl
      exact ih h.2 pre' hl.2

/-! ### The paths through `main` -/

theorem openBackend_cases (f : Flags) (w : World) :
    (openBackend f w).1 = .newBoltDB f.dbPath (openBackend f w).2 ∨
    (openBackend f w).1 = .newSqlite3 f.dbPath (openBackend f w).2 := by
  unfold openBackend
  split <;> simp

theorem openBackend_engine (f : Flags) (w : World) :
    (openBackend f w).1.engine = some (selectedEngine f w) := by
  unfold openBackend selectedEngine
  by_cases h : f.useBolt = true <;> by_cases g : w.goos = "darwin" <;>
    simp [h, g, Action.engine]

theorem openBrowserTrace_cases (f : Flags) (w : World) :
    openBrowserTrace f w = [] ∨ ∃ c e, openBrowserTrace f w = [.run c e] := by
  unfold openBrowserTrace
  split
  · exact Or.inr ⟨_, _, rfl⟩
  · exact Or.inl rfl

/-- The five ways `start` can go, each with the run it produces. -/
theorem start_cases (f : Flags) (w : World) :
    (w.listen ≠ none ∧ start f w =
      { trace := [.listen (f.bind ++ ":" ++ toString f.port) w.listen,
          .logListening (f.bind ++ ":" ++ toString f.port), .logFatal, .exit 1],
        outcome := .exited 1 }) ∨
    (w.listen = none ∧ w.request = none ∧ start f w =
      { trace := [.listen (f.bind ++ ":" ++ toString f.port) none,
          .logListening (f.bind ++ ":" ++ toString f.port), .goRestart, .serve],
        outcome := .blocked }) ∨
    (∃ m, w.listen = none ∧ w.request = some m ∧ w.osArgs = [] ∧ start f w =
      { trace := [.listen (f.bind ++ ":" ++ toString f.port) none,
          .logListening (f.bind ++ ":" ++ toString f.port), .goRestart, .serve,
          .recv m, .logRestart m, .closeListener, .sleep 5, .panic],
        outcome := .panicked }) ∨
    (∃ m a r, w.listen = none ∧ w.request = some m ∧ w.osArgs = a :: r ∧
      w.cmdStart = none ∧ start f w =
      { trace := [.listen (f.bind ++ ":" ++ toString f.port) none,
          .logListening (f.bind ++ ":" ++ toString f.port), .goRestart, .serve,
          .recv m, .logRestart m, .closeListener, .sleep 5,
          .cmdStart (execCommand a r) none, .panic],
        outcome := .panicked }) ∨
    (∃ m a r pid, w.listen = none ∧ w.request = some m ∧ w.osArgs = a :: r ∧
      w.cmdStart = some pid ∧ start f w =
      { trace := [.listen (f.bind ++ ":" ++ toString f.port) none,
          .logListening (f.bind ++ ":" ++ toString f.port), .goRestart, .serve,
          .recv m, .logRestart m, .closeListener, .sleep 5,
          .cmdStart (execCommand a r) (some pid), .logReplacement pid, .exit 0],
        outcome := .exited 0 }) := by
  cases hl : w.listen with
  | some e => exact Or.inl ⟨by simp, by simp [start, hl]⟩
  | none =>
    refine Or.inr ?_
    cases hq : w.request with
    | none => exact Or.inl ⟨rfl, rfl, by simp [start, hl, hq]⟩
    | some m =>
      refine Or.inr ?_
      cases ha : w.osArgs with
      | nil =>
        exact Or.inl ⟨m, rfl, rfl, rfl,
          by simp [start, hl, hq, ha, restartRoutine, Chan.recv, restartChan, Chan.make,
            restartCommand]⟩
      | cons a r =>
        refine Or.inr ?_
        cases hs : w.cmdStart with
        | none =>
          exact Or.inl ⟨m, a, r, rfl, rfl, rfl, rfl,
            by simp [start, hl, hq, ha, hs, restartRoutine, Chan.recv, restartChan, Chan.make,
              restartCommand]⟩
        | some pid =>
          exact Or.inr ⟨m, a, r, pid, rfl, rfl, rfl, rfl,
            by simp [start, hl, hq, ha, hs, restartRoutine, Chan.recv, restartChan, Chan.make,
              restartCommand]⟩

theorem start_outcome (f : Flags) (w : World) : (start f w).outcome ≠ .returned := by
  rcases start_cases f w with h | h | ⟨m, h⟩ | ⟨m, a, r, h⟩ | ⟨m, a, r, pid, h⟩ <;>
    simp [h]

/-- The paths through `main` up to the call of `start`, each with the run it produces. -/
theorem main_eq (f : Flags) (w : World) : main f w =
    if f.version = true then { trace := [.printVersion], outcome := .returned }
    else if f.browser = true ∧ w.browserRun ≠ none then
      { trace := [.run (openBrowserCmd w.goos f) w.browserRun, .logFatal, .exit 1],
        outcome := .exited 1 }
    else if w.running = true then
      { trace := (openBrowserTrace f w) ++ [.running true], outcome := .returned }
    else if (openBackend f w).2 ≠ none then
      { trace := (openBrowserTrace f w) ++
          [.running false, (openBackend f w).1, .logFatal, .exit 1],
        outcome := .exited 1 }
    else if f.daemon = true then
      { trace := (openBrowserTrace f w) ++
          [.running false, (openBackend f w).1, .logBackend, .daemonize, .dbClose],
        outcome := .returned }
    else
      { trace := (openBrowserTrace f w) ++
          ([.running false, (openBackend f w).1, .logBackend] ++ (start f w).trace),
        outcome := (start f w).outcome } := by
  have hs := start_outcome f w
  unfold main openBrowserTrace serveOrDaemonize
  generalize start f w = r at hs ⊢
  generalize openBackend f w = ob
  obtain ⟨oa, oe⟩ := ob
  obtain ⟨tr, o⟩ := r
  obtain ⟨bind, dbPath, port, browser, daemon, restart, useBolt, version⟩ := f
  obtain ⟨goos, osArgs, browserRun, running, bolt, sqlite, listen, cmdStart, request⟩ := w
  cases version
  · cases browser <;> cases browserRun <;> cases running <;> cases oe <;>
      cases daemon <;> cases o <;> simp [openBrowser] at hs ⊢
  · simp

/-- The paths through `main` as alternatives, each with its condition: the version
banner, the failed browser launch, the instance already running, the failed backend
open, the daemon, and the five ways of `start`. -/
theorem main_cases (f : Flags) (w : World) :
    (f.version = true ∧ main f w = { trace := [.printVersion], outcome := .returned }) ∨
    (f.version = false ∧ f.browser = true ∧ w.browserRun ≠ none ∧ main f w =
      { trace := [.run (openBrowserCmd w.goos f) w.browserRun, .logFatal, .exit 1],
        outcome := .exited 1 }) ∨
    (f.version = false ∧ ¬(f.browser = true ∧ w.browserRun ≠ none) ∧ w.running = true ∧
      main f w =
      { trace := (openBrowserTrace f w) ++ [.running true], outcome := .returned }) ∨
    (f.version = false ∧ ¬(f.browser = true ∧ w.browserRun ≠ none) ∧ w.running = false ∧
      (openBackend f w).2 ≠ none ∧ main f w =
      { trace := (openBrowserTrace f w) ++
          [.running false, (openBackend f w).1, .logFatal, .exit 1],
        outcome := .exited 1 }) ∨
    (f.version = false ∧ ¬(f.browser = true ∧ w.browserRun ≠ none) ∧ w.running = false ∧
      (openBackend f w).2 = none ∧ f.daemon = true ∧ main f w =
      { trace := (openBrowserTrace f w) ++
          [.running false, (openBackend f w).1, .logBackend, .daemonize, .dbClose],
        outcome := .returned }) ∨
    (f.version = false ∧ ¬(f.browser = true ∧ w.browserRun ≠ none) ∧ w.running = false ∧
      (openBackend f w).2 = none ∧ f.daemon = false ∧ w.listen ≠ none ∧ main f w =
      { trace := (openBrowserTrace f w) ++
          [.running false, (openBackend f w).1, .logBackend,
           .listen (f.bind ++ ":" ++ toString f.port) w.listen,
           .logListening (f.bind ++ ":" ++ toString f.port), .logFatal, .exit 1],
        outcome := .exited 1 }) ∨
    (f.version = false ∧ ¬(f.browser = true ∧ w.browserRun ≠ none) ∧ w.running = false ∧
      (openBackend f w).2 = none ∧ f.daemon = false ∧ w.listen = none ∧
      w.request = none ∧ main f w =
      { trace := (openBrowserTrace f w) ++
          [.running false, (openBackend f w).1, .logBackend,
           .listen (f.bind ++ ":" ++ toString f.port) none,
           .logListening (f.bind ++ ":" ++ toString f.port), .goRestart, .serve],
        outcome := .blocked }) ∨
    (∃ m, f.version = false ∧ ¬(f.browser = true ∧ w.browserRun ≠ none) ∧
      w.running = false ∧ (openBackend f w).2 = none ∧ f.daemon = false ∧
      w.listen = none ∧ w.request = some m ∧ w.osArgs = [] ∧ main f w =
      { trace := (openBrowserTrace f w) ++
          [.running false, (openBackend f w).1, .logBackend,
           .listen (f.bind ++ ":" ++ toString f.port) none,
           .logListening (f.bind ++ ":" ++ toString f.port), .goRestart, .serve,
           .recv m, .logRestart m, .closeListener, .sleep 5, .panic],
        outcome := .panicked }) ∨
    (∃ m a r, f.version = false ∧ ¬(f.browser = true ∧ w.browserRun ≠ none) ∧
      w.running = false ∧ (openBackend f w).2 = none ∧ f.daemon = false ∧
      w.listen = none ∧ w.request = some m ∧ w.osArgs = a :: r ∧ w.cmdStart = none ∧
      main f w =
      { trace := (openBrowserTrace f w) ++
          [.running false, (openBackend f w).1, .logBackend,
           .listen (f.bind ++ ":" ++ toString f.port) none,
           .logListening (f.bind ++ ":" ++ toString f.port), .goRestart, .serve,
           .recv m, .logRestart m, .closeListener, .sleep 5,
           .cmdStart (execCommand a r) none, .panic],
        outcome := .panicked }) ∨
    (∃ m a r pid, f.version = false ∧ ¬(f.browser = true ∧ w.browserRun ≠ none) ∧
      w.running = false ∧ (openBackend f w).2 = none ∧ f.daemon = false ∧
      w.listen = none ∧ w.request = some m ∧ w.osArgs = a :: r ∧ w.cmdStart = some pid ∧
      main f w =
      { trace := (openBrowserTrace f w) ++
          [.running false, (openBackend f w).1, .logBackend,
           .listen (f.bind ++ ":" ++ toString f.port) none,
           .logListening (f.bind ++ ":" ++ toString f.port), .goRestart, .serve,
           .recv m, .logRestart m, .closeListener, .sleep 5,
           .cmdStart (execCommand a r) (some pid), .logReplacement pid, .exit 0],
        outcome := .exited 0 }) := by
  rw [main_eq]
  by_cases hv : f.version = true
  · exact Or.inl ⟨hv, if_pos hv⟩
  rw [if_neg hv]
  have hv' : f.version = false := by simpa using hv
  by_cases hb : f.browser = true ∧ w.browserRun ≠ none
  · exact Or.inr (Or.inl ⟨hv', hb.1, hb.2, if_pos hb⟩)
  rw [if_neg hb]
  by_cases hr : w.running = true
  · exact Or.inr (Or.inr (Or.inl ⟨hv', hb, hr, if_pos hr⟩))
  rw [if_neg hr]
  have hr' : w.running = false := by simpa using hr
  by_cases ho : (openBackend f w).2 ≠ none
  · exact Or.inr (Or.inr (Or.inr (Or.inl ⟨hv', hb, hr', ho, if_pos ho⟩)))
  rw [if_neg ho]
  have ho' : (openBackend f w).2 = none := by simpa using ho
  by_cases hd : f.daemon = true
  · exact Or.inr (Or.inr (Or.inr (Or.inr (Or.inl ⟨hv', hb, hr', ho', hd, if_pos hd⟩))))
  rw [if_neg hd]
  have hd' : f.daemon = false := by simpa using hd
  refine Or.inr (Or.inr (Or.inr (Or.inr (Or.inr ?_))))
  rcases start_cases f w with h | h | ⟨m, h⟩ | ⟨m, a, r, h⟩ | ⟨m, a, r, pid, h⟩
  · exact Or.inl ⟨hv', hb, hr', ho', hd', h.1, by rw [h.2]; rfl⟩
  · exact Or.inr (Or.inl ⟨hv', hb, hr', ho', hd', h.1, h.2.1, by rw [h.2.2]; rfl⟩)
  · exact Or.inr (Or.inr (Or.inl ⟨m, hv', hb, hr', ho', hd', h.1, h.2.1, h.2.2.1,
      by rw [h.2.2.2]; rfl⟩))
  · exact Or.inr (Or.inr (Or.inr (Or.inl ⟨m, a, r, hv', hb, hr', ho', hd', h.1, h.2.1,
      h.2.2.1, h.2.2.2.1, by rw [h.2.2.2.2]; rfl⟩)))
  · exact Or.inr (Or.inr (Or.inr (Or.inr ⟨m, a, r, pid, hv', hb, hr', ho', hd', h.1, h.2.1,
      h.2.2.1, h.2.2.2.1, by rw [h.2.2.2.2]; rfl⟩)))

theorem main_guard_checks (f : Flags) (w : World) :
    (w.running = true → ∀ a ∈ (main f w).trace, a.guarded = false) ∧
    precededBy Action.isNotRunning Action.guarded (main f w).trace = true := by
  rcases openBrowserTrace_cases f w with hp | ⟨c, e, hp⟩ <;>
  rcases openBackend_cases f w with ho | ho <;>
  rcases main_cases f w with
    h | h | h | h | h | h | h | ⟨m, h⟩ | ⟨m, a, r, h⟩ | ⟨m, a, r, pid, h⟩ <;>
  simp only [h, hp, ho] <;>
  simp [precededBy, Action.guarded, Action.isBackendOpen, Action.inStart,
    Action.isNotRunning, h]

theorem running_false_mem_main (f : Flags) (w : World) :
    Action.running false ∈ (main f w).trace ↔ pastGuard f w := by
  unfold pastGuard
  rcases openBrowserTrace_cases f w with hp | ⟨c, e, hp⟩ <;>
  rcases openBackend_cases f w with ho | ho <;>
  rcases main_cases f w with
    h | h | h | h | h | h | h | ⟨m, h⟩ | ⟨m, a, r, h⟩ | ⟨m, a, r, pid, h⟩ <;>
  simp only [h, hp, ho] <;>
  simp [h]

theorem openedEngines_main (f : Flags) (w : World) :
    (pastGuard f w → openedEngines (main f w).trace = [selectedEngine f w]) ∧
    (¬ pastGuard f w → openedEngines (main f w).trace = []) := by
  have he := openBackend_engine f w
  unfold pastGuard
  rcases openBrowserTrace_cases f w with hp | ⟨c, e, hp⟩ <;>
  rcases main_cases f w with
    h | h | h | h | h | h | h | ⟨m, h⟩ | ⟨m, a, r, h⟩ | ⟨m, a, r, pid, h⟩ <;>
  simp only [h, hp, openedEngines, List.filterMap_append, List.filterMap_cons, he,
    List.nil_append, List.cons_append] <;>
  simp [Action.engine, h]

theorem main_failed_backend (f : Flags) (w : World) (hv : f.version = false)
    (hr : w.running = false) (he : (openBackend f w).2 ≠ none) :
    exitStatus (main f w).outcome = some 1 ∧
      ∀ b ∈ (main f w).trace, b.isDaemonize = false ∧ b.inStart = false := by
  rcases openBrowserTrace_cases f w with hp | ⟨c, e, hp⟩ <;>
  rcases openBackend_cases f w with ho | ho <;>
  rcases main_cases f w with
    h | h | h | h | h | h | h | ⟨m, h⟩ | ⟨m, a, r, h⟩ | ⟨m, a, r, pid, h⟩ <;>
  first
  | exact absurd h.2.2.2.1 he
  | (simp only [h, hp, ho]
     simp_all [exitStatus, Action.isDaemonize, Action.inStart])

set_option maxHeartbeats 1600000 in
theorem main_service_started (f : Flags) (w : World)
    (hs : ∃ b ∈ (main f w).trace, b.isDaemonize = true ∨ b.inStart = true) :
    (∃ a ∈ (main f w).trace, a.isOpenOk = true) ∧
      (f.daemon = true → (main f w).trace.countP Action.isDaemonize = 1 ∧
        (main f w).trace.countP Action.inStart = 0) ∧
      (f.daemon = false → (main f w).trace.countP Action.isDaemonize = 0 ∧
        (main f w).trace.countP Action.isListen = 1) := by
  rcases openBrowserTrace_cases f w with hp | ⟨c, e, hp⟩ <;>
  rcases openBackend_cases f w with ho | ho <;>
  rcases main_cases f w with
    h | h | h | h | h | h | h | ⟨m, h⟩ | ⟨m, a, r, h⟩ | ⟨m, a, r, pid, h⟩ <;>
  simp only [h, hp, ho] at hs ⊢ <;>
  simp_all [Action.isDaemonize, Action.inStart, Action.isOpenOk, Action.isListen,
    List.countP_cons]

theorem main_reaches_service (f : Flags) (w : World) (hv : f.version = false)
    (hb : f.browser = true → w.browserRun = none) (hr : w.running = false)
    (he : (openBackend f w).2 = none) :
    ∃ b ∈ (main f w).trace, b.isDaemonize = true ∨ b.inStart = true := by
  rcases main_cases f w with
    h | h | h | h | h | h | h | ⟨m, h⟩ | ⟨m, a, r, h⟩ | ⟨m, a, r, pid, h⟩
  · simp [h.1] at hv
  · exact absurd (hb h.2.1) h.2.2.1
  · simp [h.2.2.1] at hr
  · exact absurd he h.2.2.2.1
  · exact ⟨.daemonize, by simp [h], Or.inl rfl⟩
  all_goals exact ⟨.logListening (f.bind ++ ":" ++ toString f.port), by simp [h], Or.inr rfl⟩

/-! ### The restart routine and its channel -/

theorem restartRoutine_checks (ch : Chan) (w : World) :
    precededBy Action.isRecv Action.isSpawnOrExit (restartRoutine ch w).1.trace = true ∧
    precededBy Action.isClose Action.isSpawnOrExit (restartRoutine ch w).1.trace = true ∧
    noneAfter Action.isSpawn Action.isClose (restartRoutine ch w).1.trace = true := by
  obtain ⟨cap, buf⟩ := ch
  obtain ⟨goos, osArgs, browserRun, running, bolt, sqlite, listen, cmdStart, request⟩ := w
  cases buf <;> cases osArgs <;> cases cmdStart <;>
    simp [restartRoutine, Chan.recv, restartCommand, precededBy, noneAfter,
      Action.isRecv, Action.isClose, Action.isSpawn, Action.isExit, Action.isSpawnOrExit]

theorem reachable_inv (c : Chan) (h : Reachable c) : c.cap = 1 ∧ c.buf.length ≤ 1 := by
  induction h with
  | start => exact ⟨rfl, Nat.zero_le _⟩
  | @send c c' m _ hs ih =>
    unfold Chan.send at hs
    split at hs
    · rename_i hlt
      simp only [Option.some.injEq] at hs
      subst hs
      refine ⟨ih.1, ?_⟩
      simp only [List.length_append, List.length_singleton]
      omega
    · simp at hs
  | @recv c c' m _ hr ih =>
    unfold Chan.recv at hr
    split at hr
    · simp at hr
    · rename_i m0 rest hb
      simp only [Option.some.injEq, Prod.mk.injEq] at hr
      obtain ⟨_, hc⟩ := hr
      subst hc
      refine ⟨ih.1, ?_⟩
      have := ih.2
      rw [hb] at this
      simp only [List.length_cons] at this ⊢
      omega

/-! ### The library function `filepath.Join` -/

theorem atElementEnd_append (xs ys : List Char) :
    atElementEnd (xs ++ '/' :: ys) = atElementEnd xs := by
  cases xs <;> simp [atElementEnd]

theorem cleanLoop_nil (rooted st : Bool) (out : List Char) (dd : Nat) :
    cleanLoop rooted st [] out dd = (out, dd) := by
  cases st <;> rfl

theorem cleanLoop_true_cons (rooted : Bool) (c : Char) (rest out : List Char) (dd : Nat) :
    cleanLoop rooted true (c :: rest) out dd =
      if c = '/' then cleanLoop rooted false rest out dd
      else cleanLoop rooted true rest (out ++ [c]) dd := by
  rfl

theorem cleanLoop_false_one (rooted : Bool) (c : Char) (out : List Char) (dd : Nat) :
    cleanLoop rooted false [c] out dd =
      if c = '/' then (out, dd) else if c = '.' then (out, dd)
      else (addSeparator rooted out ++ [c], dd) := by
  rfl

theorem cleanLoop_false_cons (rooted : Bool) (c d : Char) (rest out : List Char) (dd : Nat) :
    cleanLoop rooted false (c :: d :: rest) out dd =
      if c = '/' then cleanLoop rooted false (d :: rest) out dd
      else if c = '.' ∧ d = '/' then cleanLoop rooted false (d :: rest) out dd
      else if c = '.' ∧ d = '.' ∧ atElementEnd rest = true then
        cleanLoop rooted false rest (dotdotStep rooted out dd).1 (dotdotStep rooted out dd).2
      else cleanLoop rooted true (d :: rest) (addSeparator rooted out ++ [c]) dd := by
  rfl

theorem cleanLoop_slash (rooted st : Bool) (rest out : List Char) (dd : Nat) :
    cleanLoop rooted st ('/' :: rest) out dd = cleanLoop rooted false rest out dd := by
  cases st
  · cases rest with
    | nil => rw [cleanLoop_false_one, if_pos rfl, cleanLoop_nil]
    | cons d rest => rw [cleanLoop_false_cons, if_pos rfl]
  · rw [cleanLoop_true_cons, if_pos rfl]

theorem cleanLoop_append (rooted : Bool) (ys : List Char) :
    ∀ (n : Nat) (xs : List Char), xs.length ≤ n →
      ∀ (st : Bool) (out : List Char) (dd : Nat),
      cleanLoop rooted st (xs ++ '/' :: ys) out dd =
        cleanLoop rooted false ys (cleanLoop rooted st xs out dd).1
          (cleanLoop rooted st xs out dd).2 := by
  intro n
  induction n with
  | zero =>
    intro xs hx st out dd
    have : xs = [] := List.length_eq_zero.mp (Nat.le_zero.mp hx)
    subst this
    rw [List.nil_append, cleanLoop_slash, cleanLoop_nil]
  | succ n ih =>
    intro xs hx st out dd
    cases xs with
    | nil => rw [List.nil_append, cleanLoop_slash, cleanLoop_nil]
    | cons c xs =>
      have hx1 : xs.length ≤ n := by simpa using hx
      cases st with
      | true =>
        rw [List.cons_append, cleanLoop_true_cons, cleanLoop_true_cons]
        by_cases h1 : c = '/'
        · rw [if_pos h1, if_pos h1]
          exact ih xs hx1 _ _ _
        · rw [if_neg h1, if_neg h1]
          exact ih xs hx1 _ _ _
      | false =>
        cases xs with
        | nil =>
          rw [List.cons_append, List.nil_append, cleanLoop_false_cons, cleanLoop_false_one]
          by_cases h1 : c = '/'
          · rw [if_pos h1, if_pos h1, cleanLoop_slash]
          · rw [if_neg h1, if_neg h1]
            by_cases h2 : c = '.'
            · rw [if_pos ⟨h2, rfl⟩, if_pos h2, cleanLoop_slash]
            · rw [if_neg (fun h => h2 h.1), if_neg (fun h => h2 h.1), if_neg h2,
                cleanLoop_true_cons, if_pos rfl]
        | cons d xs2 =>
          have hx2 : xs2.length ≤ n := by
            simp only [List.length_cons] at hx1
            omega
          rw [List.cons_append, List.cons_append, cleanLoop_false_cons, cleanLoop_false_cons,
            atElementEnd_append]
          by_cases h1 : c = '/'
          · rw [if_pos h1, if_pos h1]
            exact ih (d :: xs2) hx1 _ _ _
          · rw [if_neg h1, if_neg h1]
            by_cases h2 : c = '.' ∧ d = '/'
            · rw [if_pos h2, if_pos h2]
              exact ih (d :: xs2) hx1 _ _ _
            · rw [if_neg h2, if_neg h2]
              by_cases h3 : c = '.' ∧ d = '.' ∧ atElementEnd xs2 = true
              · rw [if_pos h3, if_pos h3]
                exact ih xs2 hx2 _ _ _
              · rw [if_neg h3, if_neg h3]
                exact ih (d :: xs2) hx1 _ _ _


theorem addSeparator_of_two_le (rooted : Bool) (out : List Char) (h : 2 ≤ out.length) :
    addSeparator rooted out = out ++ ['/'] := by
  unfold addSeparator
  have h1 : out.length ≠ 1 := by omega
  have h0 : out.length ≠ 0 := by omega
  cases rooted <;> simp [h1, h0]

theorem cleanLoop_copy (rooted : Bool) (c : Char) (rest out : List Char) (dd : Nat)
    (h : c ≠ '/') :
    cleanLoop rooted true (c :: rest) out dd = cleanLoop rooted true rest (out ++ [c]) dd := by
  rw [cleanLoop_true_cons, if_neg h]

theorem cleanLoop_element (rooted : Bool) (c d : Char) (rest out : List Char) (dd : Nat)
    (hc : c ≠ '/') (hd : d ≠ '/') (hdd : d ≠ '.') :
    cleanLoop rooted false (c :: d :: rest) out dd =
      cleanLoop rooted true (d :: rest) (addSeparator rooted out ++ [c]) dd := by
  rw [cleanLoop_false_cons, if_neg hc, if_neg (fun h => hd h.2), if_neg (fun h => hdd h.2.1)]

theorem cleanLoop_notesRel (rooted : Bool) (out : List Char) (dd : Nat) :
    cleanLoop rooted false notesRel out dd = (addSeparator rooted out ++ notesRel, dd) := by
  have h2 : 2 ≤ (addSeparator rooted out ++ ['.', 'n', 'o', 't', 'a', 'b', 'l', 'e']).length := by
    simp
  have hs := addSeparator_of_two_le rooted _ h2
  unfold notesRel
  rw [cleanLoop_element _ _ _ _ _ _ (by decide) (by decide) (by decide)]
  iterate 7 rw [cleanLoop_copy _ _ _ _ _ (by decide)]
  rw [cleanLoop_slash, cleanLoop_element _ _ _ _ _ _ (by decide) (by decide) (by decide)]
  iterate 7 rw [cleanLoop_copy _ _ _ _ _ (by decide)]
  rw [cleanLoop_nil]
  simp only [List.append_assoc, List.cons_append, List.nil_append] at hs ⊢
  rw [hs]
  simp


theorem backtrackTo_pos (out : List Char) (w : Nat) (h : 1 ≤ w) :
    1 ≤ backtrackTo out 1 w := by
  induction w with
  | zero => omega
  | succ w ih =>
    unfold backtrackTo
    split
    · rename_i hc
      have : 1 ≤ w := by omega
      exact ih this
    · omega

theorem dotdotStep_rooted (t : List Char) :
    ∃ t', dotdotStep true ('/' :: t) 1 = ('/' :: t', 1) := by
  unfold dotdotStep
  split
  · rename_i hl
    have hw : 1 ≤ ('/' :: t).length - 1 := by omega
    have hb := backtrackTo_pos ('/' :: t) _ hw
    obtain ⟨k, hk⟩ : ∃ k, backtrackTo ('/' :: t) 1 (('/' :: t).length - 1) = k + 1 :=
      ⟨_, (Nat.sub_add_cancel hb).symm⟩
    rw [hk]
    exact ⟨t.take k, rfl⟩
  · exact ⟨t, rfl⟩

theorem addSeparator_rooted (t : List Char) (c : Char) :
    ∃ t', addSeparator true ('/' :: t) ++ [c] = '/' :: t' := by
  unfold addSeparator
  split
  · exact ⟨t ++ ['/'] ++ [c], by simp⟩
  · exact ⟨t ++ [c], by simp⟩

theorem cleanLoop_rooted :
    ∀ (n : Nat) (xs : List Char), xs.length ≤ n → ∀ (st : Bool) (t : List Char),
      ∃ t', cleanLoop true st xs ('/' :: t) 1 = ('/' :: t', 1) := by
  intro n
  induction n with
  | zero =>
    intro xs hx st t
    have : xs = [] := List.length_eq_zero.mp (Nat.le_zero.mp hx)
    subst this
    exact ⟨t, cleanLoop_nil _ _ _ _⟩
  | succ n ih =>
    intro xs hx st t
    cases xs with
    | nil => exact ⟨t, cleanLoop_nil _ _ _ _⟩
    | cons c xs =>
      have hx1 : xs.length ≤ n := by simpa using hx
      cases st with
      | true =>
        rw [cleanLoop_true_cons]
        split
        · exact ih xs hx1 _ _
        · exact ih xs hx1 _ (t ++ [c])
      | false =>
        cases xs with
        | nil =>
          rw [cleanLoop_false_one]
          split
          · exact ⟨t, rfl⟩
          · split
            · exact ⟨t, rfl⟩
            · obtain ⟨t', ht'⟩ := addSeparator_rooted t c
              exact ⟨t', by rw [ht']⟩
        | cons d xs2 =>
          have hx2 : xs2.length ≤ n := by
            simp only [List.length_cons] at hx1
            omega
          rw [cleanLoop_false_cons]
          split
          · exact ih _ hx1 _ _
          · split
            · exact ih _ hx1 _ _
            · split
              · obtain ⟨t', ht'⟩ := dotdotStep_rooted t
                rw [ht']
                exact ih _ hx2 _ _
              · obtain ⟨t', ht'⟩ := addSeparator_rooted t c
                rw [ht']
                exact ih _ hx1 _ _

theorem cleanBuf_join (h : String) (hne : h ≠ "") :
    filepathJoin [h, String.mk notesRel] =
      String.mk (addSeparator (h.data.head? = some '/') (cleanBuf h.data) ++ notesRel) := by
  obtain ⟨hd⟩ := h
  cases hd with
  | nil => exact absurd rfl hne
  | cons c hs =>
    have hd : (String.intercalate "/" [String.mk (c :: hs), String.mk notesRel]).data
        = c :: (hs ++ '/' :: notesRel) := by
      simp [String.intercalate, String.intercalate.go]
    have hne' : ∀ r, addSeparator r (cleanBuf (c :: hs)) ++ notesRel ≠ [] := by
      intro r
      simp [notesRel]
    have hb : cleanBuf (c :: (hs ++ '/' :: notesRel)) =
        addSeparator (decide (c = '/')) (cleanBuf (c :: hs)) ++ notesRel := by
      unfold cleanBuf
      by_cases hc : c = '/'
      · simp only [List.head?_cons, hc, if_true, List.tail_cons, decide_True]
        rw [cleanLoop_append true notesRel hs.length hs (Nat.le_refl _), cleanLoop_notesRel]
      · have hc' : ¬ (some c = some '/') := fun h => hc (Option.some.inj h)
        simp only [List.head?_cons, hc', if_false, hc, decide_False]
        have := cleanLoop_append false notesRel (c :: hs).length (c :: hs) (Nat.le_refl _)
          false [] 0
        rw [List.cons_append] at this
        rw [this, cleanLoop_notesRel]
    simp only [filepathJoin, List.dropWhile, hne, decide_False, filepathClean, hd, hb,
      if_neg (hne' _), List.head?_cons, Option.some.injEq]

/-- The join with the notes path of an absolute home directory. -/
theorem filepathJoin_absolute (h : String) (hh : h.data.head? = some '/') :
    filepathJoin [h, String.mk notesRel] =
      (if filepathClean h = "/" then "/" else filepathClean h ++ "/") ++ String.mk notesRel := by
  have hne : h ≠ "" := by
    intro he
    rw [he] at hh
    cases hh
  obtain ⟨t, ht⟩ := cleanLoop_rooted h.data.tail.length h.data.tail (Nat.le_refl _) false []
  have hbuf : cleanBuf h.data = '/' :: t := by
    unfold cleanBuf
    rw [if_pos hh, ht]
  have hclean : filepathClean h = String.mk ('/' :: t) := by
    unfold filepathClean
    rw [hbuf]
    simp
  rw [cleanBuf_join h hne, hclean, hbuf]
  simp only [hh, decide_True]
  cases t with
  | nil =>
    have : (String.mk ['/'] : String) = "/" := rfl
    simp [addSeparator, this]
    rfl
  | cons c t =>
    have hne2 : (String.mk ('/' :: c :: t) : String) ≠ "/" := by
      intro he
      have := congrArg String.data he
      simp at this
    rw [if_neg hne2]
    apply String.ext
    simp [addSeparator, String.data_append]

/-- The join with the notes path of a relative home directory. -/
theorem filepathJoin_relative (h : String) (hh : h.data.head? ≠ some '/') :
    filepathJoin [h, String.mk notesRel] =
      (if cleanBuf h.data = [] then "" else filepathClean h ++ "/") ++ String.mk notesRel := by
  by_cases hne : h = ""
  · subst hne
    decide
  · rw [cleanBuf_join h hne]
    simp only [hh, decide_False]
    by_cases hb : cleanBuf h.data = []
    · rw [if_pos hb, hb]
      rfl
    · rw [if_neg hb]
      have hl : (cleanBuf h.data).length ≠ 0 := fun h0 => hb (List.length_eq_zero.mp h0)
      apply String.ext
      simp [addSeparator, hl, filepathClean, hb, String.data_append]

/-! ### The claims -/

/-- C1. Whatever the flags are (the restart flag included), a run of `main` in which
`running()` answers true (an instance is already running) opens no backend, does not
call `daemonize` and does nothing of `start`, so it never listens; and in every run,
each backend open, each `daemonize` and each action of `start` comes after a
`running()` call that answered false. -/
theorem main_singleton_guard (f : Flags) (w : World) :
    (w.running = true → ∀ a ∈ (main f w).trace, a.guarded = false) ∧
    (∀ pre a post, (main f w).trace = pre ++ a :: post → a.guarded = true →
      Action.running false ∈ pre) := by
  have key := main_guard_checks f w
  refine ⟨key.1, fun pre a post hl hp => ?_⟩
  obtain ⟨b, hb, hq⟩ := precededBy_sound _ _ _ key.2 pre a post hl hp
  have : b = Action.running false := by
    cases b <;> simp [Action.isNotRunning] at hq
    rename_i ans
    cases ans <;> simp [Action.isNotRunning] at hq ⊢
  exact this ▸ hb

/-- C1 at concrete runs: a second instance started with the default flags does not call
`daemonize`, and in a first instance the call `NewBoltDB` comes after `running()`
answered false. -/
theorem main_singleton_guard_witness :
    Action.daemonize ∉ (main defaultFlags secondInstanceWorld).trace ∧
    Action.running false ∈
      [Action.run (openBrowserCmd "linux" defaultFlags) none, Action.running false] :=
  ⟨fun hmem => by
      have h := (main_singleton_guard defaultFlags secondInstanceWorld).1 rfl
        Action.daemonize hmem
      simp [Action.guarded] at h,
   (main_singleton_guard defaultFlags linuxWorld).2
      [Action.run (openBrowserCmd "linux" defaultFlags) none, Action.running false]
      (Action.newBoltDB "" none) [Action.logBackend, Action.daemonize, Action.dbClose]
      (by simp [main, openBrowser, openBackend, serveOrDaemonize, defaultFlags, linuxWorld])
      rfl⟩

/-- C2, as stated, fails: with the request `upgrade` received and the listener closed,
a failing `cmd.Start()` leaves no replacement process and no call of `os.Exit`, and with
an empty `os.Args` the routine does not even call `cmd.Start()`. -/
theorem restart_order_counterexample :
    Action.recv "upgrade" ∈ (restartRoutine pendingChan startFailsWorld).1.trace ∧
    Action.closeListener ∈ (restartRoutine pendingChan startFailsWorld).1.trace ∧
    (restartRoutine pendingChan startFailsWorld).1.trace.any Action.isSpawned = false ∧
    (restartRoutine pendingChan startFailsWorld).1.trace.any Action.isExit = false ∧
    Action.recv "upgrade" ∈ (restartRoutine pendingChan noArgsWorld).1.trace ∧
    (restartRoutine pendingChan noArgsWorld).1.trace.any Action.isSpawn = false ∧
    (restartRoutine pendingChan noArgsWorld).1.trace.any Action.isExit = false := by
  simp [restartRoutine, Chan.recv, restartCommand, startFailsWorld, noArgsWorld, linuxWorld,
    pendingChan, restartChan, Chan.make, execCommand, Action.isSpawned, Action.isSpawn,
    Action.isExit]

/-- C2, amended. The restart routine does nothing while no request waits in the
channel.  For every request received while `os.Args` is non-empty and `cmd.Start()`
succeeds, its run is exactly, in this order: the receive, the log line, the close of the
listener, the start of the replacement command built from `os.Args`, the log line with
the pid, and `os.Exit(0)`, which ends the process; the request is taken out of the
channel.  In every run of the routine, whatever `os.Args` and the result of the start
are, a `cmd.Start()` or an `os.Exit` comes after a receive and after the close of the
listener, and the listener is not closed after the `cmd.Start()`. -/
theorem restart_order (ch : Chan) (w : World) :
    (ch.recv = none → (restartRoutine ch w).1 = { trace := [], outcome := .blocked }) ∧
    (∀ msg ch' a rest pid, ch.recv = some (msg, ch') → w.osArgs = a :: rest →
      w.cmdStart = some pid →
      restartRoutine ch w =
        ({ trace := [.recv msg, .logRestart msg, .closeListener,
             .cmdStart { name := a, arg := rest } (some pid), .logReplacement pid, .exit 0],
           outcome := .exited 0 }, ch')) ∧
    (∀ pre a post, (restartRoutine ch w).1.trace = pre ++ a :: post →
      a.isSpawnOrExit = true →
      (∃ b ∈ pre, b.isRecv = true) ∧ Action.closeListener ∈ pre) ∧
    (∀ pre a post, (restartRoutine ch w).1.trace = pre ++ a :: post → a.isSpawn = true →
      Action.closeListener ∉ post) := by
  obtain ⟨h1, h2, h3⟩ := restartRoutine_checks ch w
  refine ⟨?_, ?_, ?_, ?_⟩
  · intro h
    simp [restartRoutine, h]
  · intro msg ch' a rest pid h ha hs
    simp [restartRoutine, h, ha, hs, restartCommand, execCommand]
  · intro pre a post hl ha
    refine ⟨precededBy_sound _ _ _ h1 pre a post hl ha, ?_⟩
    obtain ⟨b, hb, hq⟩ := precededBy_sound _ _ _ h2 pre a post hl ha
    cases b <;> simp [Action.isClose] at hq
    exact hb
  · intro pre a post hl ha hmem
    have := noneAfter_sound _ _ _ h3 pre a post hl ha _ hmem
    simp [Action.isClose] at this

/-- C2 amended, at concrete runs: with the channel empty the routine is blocked and has
done nothing; with the request `upgrade` pending and a start that succeeds it runs from
the receive to `os.Exit(0)`; and in that run the listener is closed before the spawn and
not after it. -/
theorem restart_order_witness :
    (restartRoutine restartChan linuxWorld).1 = { trace := [], outcome := .blocked } ∧
    restartRoutine pendingChan linuxWorld =
      ({ trace := [.recv "upgrade", .logRestart "upgrade", .closeListener,
           .cmdStart { name := "notable", arg := ["-use.bolt=false"] } (some 4242),
           .logReplacement 4242, .exit 0],
         outcome := .exited 0 }, restartChan) ∧
    Action.closeListener ∈
      [Action.recv "upgrade", Action.logRestart "upgrade", Action.closeListener] ∧
    Action.closeListener ∉ [Action.logReplacement 4242, Action.exit 0] :=
  ⟨(restart_order restartChan linuxWorld).1 rfl,
   (restart_order pendingChan linuxWorld).2.1 "upgrade" restartChan "notable"
      ["-use.bolt=false"] 4242 rfl rfl rfl,
   ((restart_order pendingChan linuxWorld).2.2.1
      [Action.recv "upgrade", Action.logRestart "upgrade", Action.closeListener]
      (Action.cmdStart { name := "notable", arg := ["-use.bolt=false"] } (some 4242))
      [Action.logReplacement 4242, Action.exit 0]
      (by simp [restartRoutine, Chan.recv, restartCommand, execCommand, linuxWorld,
        pendingChan, restartChan, Chan.make])
      rfl).2,
   (restart_order pendingChan linuxWorld).2.2.2
      [Action.recv "upgrade", Action.logRestart "upgrade", Action.closeListener]
      (Action.cmdStart { name := "notable", arg := ["-use.bolt=false"] } (some 4242))
      [Action.logReplacement 4242, Action.exit 0]
      (by simp [restartRoutine, Chan.recv, restartCommand, execCommand, linuxWorld,
        pendingChan, restartChan, Chan.make])
      rfl⟩

/-- C3. For every non-empty argument vector `args` of the process, the restart routine,
on receiving a request, starts exactly one command, the one built from `args`: its name
is `args[0]`, its arguments are `args[1:]`, and its argument vector (the name followed
by the arguments) is `args` itself, of the same length and with the same element at
every index. -/
theorem restart_command_argv (args : List String) (h : args ≠ []) :
    (restartCommand args).map Cmd.name = args[0]? ∧
    (restartCommand args).map Cmd.arg = some (args.drop 1) ∧
    (restartCommand args).map Cmd.argv = some args ∧
    (restartCommand args).map (fun c => c.argv.length) = some args.length ∧
    (∀ i : Nat, (restartCommand args).map (fun c => c.argv[i]?) = some args[i]?) ∧
    (∀ (ch : Chan) (w : World) (c : Cmd) (pid : Option Nat), w.osArgs = args →
      Action.cmdStart c pid ∈ (restartRoutine ch w).1.trace → c.argv = args) ∧
    (∀ (ch ch' : Chan) (msg : String) (w : World), ch.recv = some (msg, ch') →
      w.osArgs = args →
      startedCommands (restartRoutine ch w).1.trace = (restartCommand args).toList ∧
      (startedCommands (restartRoutine ch w).1.trace).map Cmd.name = [args.head h] ∧
      (startedCommands (restartRoutine ch w).1.trace).map Cmd.arg = [args.tail] ∧
      (startedCommands (restartRoutine ch w).1.trace).map Cmd.argv = [args] ∧
      (restartRoutine ch w).1.trace[3]? =
        some (.cmdStart { name := args.head h, arg := args.tail } w.cmdStart)) := by
  cases args with
  | nil => exact absurd rfl h
  | cons a rest =>
    refine ⟨by simp [restartCommand, execCommand], rfl, rfl, rfl, fun i => rfl, ?_, ?_⟩
    · intro ch w c pid hw hmem
      obtain ⟨cap, buf⟩ := ch
      cases buf <;> cases hs : w.cmdStart <;>
        simp [restartRoutine, Chan.recv, restartCommand, hw, hs] at hmem
      all_goals
        rw [hmem.1]
        rfl
    · intro ch ch' msg w hc hw
      cases hs : w.cmdStart <;>
        simp [restartRoutine, hc, hw, hs, restartCommand, execCommand, startedCommands,
          Action.command, Cmd.argv]

/-- C3 at a concrete argument vector: the command built from it has that vector, and it
is the one command the routine starts on the request `upgrade`. -/
theorem restart_command_argv_witness :
    (restartCommand ["/usr/local/bin/notable", "-port", "9090", "-db", "/tmp/n.db"]).map
        Cmd.argv
      = some ["/usr/local/bin/notable", "-port", "9090", "-db", "/tmp/n.db"] ∧
    (startedCommands (restartRoutine pendingChan linuxWorld).1.trace).map Cmd.argv
      = [["notable", "-use.bolt=false"]] :=
  ⟨(restart_command_argv ["/usr/local/bin/notable", "-port", "9090", "-db", "/tmp/n.db"]
    (by simp)).2.2.1,
   ((restart_command_argv ["notable", "-use.bolt=false"] (by simp)).2.2.2.2.2.2
      pendingChan restartChan "upgrade" linuxWorld rfl rfl).2.2.2.1⟩

/-- C4 fails on the code: when `cmd.Start()` fails, the restart routine has closed the
listener and then panics on `cmd.Process.Pid`; it never reaches `os.Exit(0)`. -/
theorem restart_start_failure_panics :
    (restartRoutine { cap := 1, buf := ["upgrade"] } startFailsWorld).1 =
      { trace := [.recv "upgrade", .logRestart "upgrade", .closeListener,
          .cmdStart { name := "./notable", arg := ["-daemon=false"] } none, .panic],
        outcome := .panicked } ∧
    Action.exit 0 ∉
      (restartRoutine { cap := 1, buf := ["upgrade"] } startFailsWorld).1.trace := by
  simp [restartRoutine, Chan.recv, restartCommand, startFailsWorld, linuxWorld, execCommand]

/-- C5, as stated, fails: with the default flags (version false, browser true), while
another instance is running and the browser launcher fails, `main` ends with exit
status 1, not 0. -/
theorem main_running_exit_counterexample :
    defaultFlags.version = false ∧ browserFailsWorld.running = true ∧
    exitStatus (main defaultFlags browserFailsWorld).outcome = some 1 ∧
    exitStatus (main defaultFlags browserFailsWorld).outcome ≠ some 0 := by
  simp [main, openBrowser, defaultFlags, browserFailsWorld, secondInstanceWorld, linuxWorld,
    exitStatus]

/-- C5, amended. With version false and an instance already running, `main` ends with
exit status 0 when the browser flag is false or `openBrowser` returns no error; when the
browser flag is true and `openBrowser` returns an error, `main` ends with exit status 1
and `running()` is never called. -/
theorem main_running_exit (f : Flags) (w : World) (hv : f.version = false)
    (hr : w.running = true) :
    ((f.browser = false ∨ w.browserRun = none) → exitStatus (main f w).outcome = some 0) ∧
    (f.browser = true → w.browserRun ≠ none →
      exitStatus (main f w).outcome = some 1 ∧
      Action.running true ∉ (main f w).trace ∧ Action.running false ∉ (main f w).trace) := by
  rcases main_cases f w with
    h | h | h | h | h | h | h | ⟨m, h⟩ | ⟨m, a, r, h⟩ | ⟨m, a, r, pid, h⟩ <;>
  simp only [h] <;>
  simp_all [exitStatus]

/-- C5 amended, at concrete runs: with the browser flag off a second instance exits with
status 0, and with the default flags and a failing launcher it exits with status 1. -/
theorem main_running_exit_witness :
    exitStatus (main { defaultFlags with browser := false } browserFailsWorld).outcome
      = some 0 ∧
    exitStatus (main defaultFlags browserFailsWorld).outcome = some 1 :=
  ⟨(main_running_exit { defaultFlags with browser := false } browserFailsWorld rfl rfl).1
    (Or.inl rfl),
   ((main_running_exit defaultFlags browserFailsWorld rfl rfl).2 rfl (by decide)).1⟩

/-- C6, as stated, fails: with `use.bolt` false on darwin `main` opens the embedded
engine, not the relational one, and the same flag values on linux open the relational
engine, so two runs with equal flags select different engines. -/
theorem engine_selection_counterexample :
    ({ defaultFlags with useBolt := false } : Flags).useBolt = false ∧
    openedEngines (main { defaultFlags with useBolt := false } darwinWorld).trace = [.bolt] ∧
    openedEngines (main { defaultFlags with useBolt := false } linuxWorld).trace
      = [.sqlite3] := by
  simp [main, openBrowser, defaultFlags, darwinWorld, linuxWorld, openedEngines,
    openBackend, serveOrDaemonize, Action.engine]

/-- C6, amended. Engine selection is a function of the `use.bolt` flag and the operating
system alone: `use.bolt` is true by default; a run of `main` opens at most one engine,
and only the selected one, which is the embedded engine when `use.bolt` is true or the
operating system is darwin and the relational engine otherwise; a run that gets past the
singleton guard opens exactly that engine; and two runs with the same flag values on the
same operating system never open different engines. -/
theorem engine_selection (f : Flags) (w : World) :
    defaultFlags.useBolt = true ∧
    (selectedEngine f w = if f.useBolt = true ∨ w.goos = "darwin" then .bolt else .sqlite3) ∧
    (openedEngines (main f w).trace = [] ∨
      openedEngines (main f w).trace = [selectedEngine f w]) ∧
    (Action.running false ∈ (main f w).trace →
      openedEngines (main f w).trace = [selectedEngine f w]) ∧
    (∀ w' : World, w'.goos = w.goos →
      ∀ e ∈ openedEngines (main f w).trace, ∀ e' ∈ openedEngines (main f w').trace,
        e = e') := by
  have sel : ∀ v : World, ∀ e ∈ openedEngines (main f v).trace, e = selectedEngine f v := by
    intro v e he
    by_cases hp : pastGuard f v
    · rw [(openedEngines_main f v).1 hp] at he
      simpa using he
    · rw [(openedEngines_main f v).2 hp] at he
      simp at he
  refine ⟨rfl, rfl, ?_, ?_, ?_⟩
  · by_cases hp : pastGuard f w
    · exact Or.inr ((openedEngines_main f w).1 hp)
    · exact Or.inl ((openedEngines_main f w).2 hp)
  · intro h
    exact (openedEngines_main f w).1 ((running_false_mem_main f w).1 h)
  · intro w' hg e he e' he'
    have hs : selectedEngine f w' = selectedEngine f w := by
      simp [selectedEngine, hg]
    rw [sel w e he, sel w' e' he', hs]

/-- C6 amended, at a concrete run: the relational engine is opened on linux when
`use.bolt` is false. -/
theorem engine_selection_witness :
    openedEngines (main { defaultFlags with useBolt := false } linuxWorld).trace
      = [.sqlite3] :=
  (engine_selection { defaultFlags with useBolt := false } linuxWorld).2.2.2.1
    (by simp [main, openBrowser, defaultFlags, linuxWorld, openBackend, serveOrDaemonize])

/-- C7. Whatever the bind address and the port are, when `net.Listen` returns an error
`start` logs it and ends the process with exit status 1, so non-zero, and it neither
launches the restart routine nor serves HTTP. -/
theorem start_listen_error (f : Flags) (w : World) (e : String) (h : w.listen = some e) :
    (start f w).trace =
      [.listen (f.bind ++ ":" ++ toString f.port) (some e),
       .logListening (f.bind ++ ":" ++ toString f.port), .logFatal, .exit 1] ∧
    (start f w).outcome = .exited 1 ∧
    (∃ c, exitStatus (start f w).outcome = some c ∧ c ≠ 0) ∧
    Action.goRestart ∉ (start f w).trace ∧ Action.serve ∉ (start f w).trace := by
  simp [start, h, exitStatus]

/-- C7 at a concrete run: the port is taken, `start` exits with status 1. -/
theorem start_listen_error_witness :
    (start defaultFlags { linuxWorld with listen := some "address already in use" }).outcome
      = .exited 1 :=
  (start_listen_error defaultFlags { linuxWorld with listen := some "address already in use" }
    "address already in use" rfl).2.1

/-- C8. The restart channel is a single-slot buffer.  In every state that sends and
receives can reach from its declaration it has capacity 1 and at most one pending
request; a send on the empty channel completes with no receiver and leaves that request
pending; and while one request is pending a second send does not complete, until the
restart routine has received the first, after which it completes. -/
theorem restartChan_single_slot :
    (∀ c, Reachable c → c.cap = 1 ∧ c.buf.length ≤ 1) ∧
    (∀ c m, Reachable c → c.buf = [] → c.send m = some { cap := 1, buf := [m] }) ∧
    (∀ c m₁ m₂ w, Reachable c → c.buf = [m₁] →
      c.send m₂ = none ∧
      (restartRoutine c w).1.trace.head? = some (.recv m₁) ∧
      (restartRoutine c w).2.send m₂ = some { cap := 1, buf := [m₂] }) := by
  refine ⟨reachable_inv, ?_, ?_⟩
  · intro c m hc hb
    obtain ⟨cap, buf⟩ := c
    have := (reachable_inv _ hc).1
    simp only at this hb
    subst this hb
    rfl
  · intro c m₁ m₂ w hc hb
    obtain ⟨cap, buf⟩ := c
    have := (reachable_inv _ hc).1
    simp only at this hb
    subst this hb
    refine ⟨rfl, ?_, ?_⟩
    · cases ha : w.osArgs <;> cases hs : w.cmdStart <;>
        simp [restartRoutine, Chan.recv, restartCommand, ha, hs]
    · cases ha : w.osArgs <;> cases hs : w.cmdStart <;>
        simp [restartRoutine, Chan.recv, restartCommand, ha, hs, Chan.send]

/-- C8 at concrete states: the declared channel takes one request, and with
`"upgrade"` pending a second send does not complete. -/
theorem restartChan_single_slot_witness :
    restartChan.send "upgrade" = some { cap := 1, buf := ["upgrade"] } ∧
    Chan.send { cap := 1, buf := ["upgrade"] } "again" = none :=
  ⟨restartChan_single_slot.2.1 restartChan "upgrade" Reachable.start rfl,
   (restartChan_single_slot.2.2 { cap := 1, buf := ["upgrade"] } "upgrade" "again"
      startFailsWorld (Reachable.send Reachable.start rfl) rfl).1⟩

/-- C9. For every home directory `h` and every value of the db flag: after `init`, the
storage path is the join of `h` with `.notable/notes.db` when the flag is the empty
string, and is the flag value, unchanged, when it is not empty (then the home directory
is not even asked for).  With `filepath.Join` of a platform whose separator is `/`, that
join is a path below `h`: `.notable/notes.db` under the cleaned `h` for an absolute `h`
(directly under `/` when `h` cleans to the root), and for a relative `h` under the
cleaned `h`, or under the current directory when cleaning `h` leaves no element. -/
theorem init_dbPath (join : List String → String) (h : String) (f : Flags) :
    (f.dbPath = "" →
      init join (.ok h) f = some { f with dbPath := join [h, ".notable/notes.db"] }) ∧
    (f.dbPath ≠ "" → ∀ e, init join e f = some f) ∧
    (f.dbPath = "" → h.data.head? = some '/' →
      init filepathJoin (.ok h) f = some { f with dbPath :=
        (if filepathClean h = "/" then "/" else filepathClean h ++ "/")
          ++ ".notable/notes.db" }) ∧
    (f.dbPath = "" → h.data.head? ≠ some '/' →
      init filepathJoin (.ok h) f = some { f with dbPath :=
        (if cleanBuf h.data = [] then "" else filepathClean h ++ "/")
          ++ ".notable/notes.db" }) := by
  have hn : (".notable/notes.db" : String) = String.mk notesRel := rfl
  refine ⟨?_, ?_, ?_, ?_⟩
  · intro hp
    simp [init, hp, homeDirPath]
  · intro hp e
    simp [init, hp]
  · intro hp hh
    simp only [init, hp, homeDirPath, if_true]
    rw [hn, filepathJoin_absolute h hh]
  · intro hp hh
    simp only [init, hp, homeDirPath, if_true]
    rw [hn, filepathJoin_relative h hh]

/-- C9 at concrete flags: with no db flag and the home directory `/home/u` the storage
path is `/home/u/.notable/notes.db`, and an explicit db flag is kept as it is. -/
theorem init_dbPath_witness :
    init filepathJoin (.ok "/home/u") defaultFlags
      = some { defaultFlags with dbPath := "/home/u/.notable/notes.db" } ∧
    init filepathJoin (.error "no home directory") { defaultFlags with dbPath := "/tmp/n.db" }
      = some { defaultFlags with dbPath := "/tmp/n.db" } :=
  ⟨(init_dbPath filepathJoin "/home/u" defaultFlags).2.2.1 rfl rfl,
   (init_dbPath filepathJoin "" { defaultFlags with dbPath := "/tmp/n.db" }).2.1 (by decide)
    (.error "no home directory")⟩

/-- C10, as stated, fails: with the version flag set, no instance running and a
backend constructor that returns an error, `main` prints the banner and returns, so the
exit status is 0. -/
theorem main_backend_error_counterexample :
    backendFailsWorld.running = false ∧
    (openBackend versionFlags backendFailsWorld).2 = some "timeout" ∧
    main versionFlags backendFailsWorld =
      { trace := [.printVersion], outcome := .returned } ∧
    exitStatus (main versionFlags backendFailsWorld).outcome = some 0 := by
  simp [main, openBackend, versionFlags, defaultFlags, backendFailsWorld, linuxWorld,
    exitStatus]

/-- C10, amended. For every flag configuration with version false in which no instance
is running and the selected backend constructor returns an error, `main` ends with exit
status 1, so non-zero, and its trace has neither `daemonize` nor any action of `start`
(no listener is acquired).  Conversely, a trace with `daemonize` or an action of `start`
has a backend open that returned no error, and it has exactly one of the two: one
`daemonize` and nothing of `start` when the daemon flag is true, one `net.Listen` of
`start` and no `daemonize` when it is false; and a run with version false that gets past
the browser launch, finds no instance running and opens the backend without error does
reach `daemonize` or `start`. -/
theorem main_backend_error (f : Flags) (w : World) :
    (f.version = false → w.running = false → (openBackend f w).2 ≠ none →
      exitStatus (main f w).outcome = some 1 ∧
      exitStatus (main f w).outcome ≠ some 0 ∧
      ∀ b ∈ (main f w).trace, b.isDaemonize = false ∧ b.inStart = false) ∧
    ((∃ b ∈ (main f w).trace, b.isDaemonize = true ∨ b.inStart = true) →
      (∃ a ∈ (main f w).trace, a.isOpenOk = true) ∧
      (f.daemon = true → (main f w).trace.countP Action.isDaemonize = 1 ∧
        (main f w).trace.countP Action.inStart = 0) ∧
      (f.daemon = false → (main f w).trace.countP Action.isDaemonize = 0 ∧
        (main f w).trace.countP Action.isListen = 1)) ∧
    (f.version = false → (f.browser = true → w.browserRun = none) → w.running = false →
      (openBackend f w).2 = none →
      ∃ b ∈ (main f w).trace, b.isDaemonize = true ∨ b.inStart = true) := by
  refine ⟨fun hv hr he => ?_, main_service_started f w, main_reaches_service f w⟩
  obtain ⟨h1, h2⟩ := main_failed_backend f w hv hr he
  exact ⟨h1, by rw [h1]; decide, h2⟩

/-- C10 amended, at concrete runs: a first instance whose backend cannot be opened exits
with status 1, and a first instance with the default flags calls `daemonize` once. -/
theorem main_backend_error_witness :
    exitStatus (main defaultFlags backendFailsWorld).outcome = some 1 ∧
    (main defaultFlags linuxWorld).trace.countP Action.isDaemonize = 1 :=
  ⟨((main_backend_error defaultFlags backendFailsWorld).1 rfl rfl
      (by simp [openBackend, defaultFlags, backendFailsWorld, linuxWorld])).1,
   (((main_backend_error defaultFlags linuxWorld).2.1
      ((main_backend_error defaultFlags linuxWorld).2.2 rfl (fun _ => rfl) rfl
        (by simp [openBackend, defaultFlags, linuxWorld]))).2.1 rfl).1⟩

end Notable
